import Mathlib

/-!
Verification of tap-spreadsheets-anywhere's discovery, format-dispatch,
sampling and crawl-configuration core against its specification.

Modelling conventions (a shallow embedding of the Python source):

* Python strings are lists of character codes (`PyStr := List Nat`),
  restricted to the ASCII fragment the repository's patterns, keys and
  configuration values use.  `pyOfString` turns a Lean string literal into
  that representation.
* Python `datetime` timestamps are `Nat` (ordered as the originals are).
* Iterators are the finite list of elements they produce; a raised
  `StopIteration` is `Option.none`, a raised error is `Except.error`.
* External collaborators (the `re` module's compiled matcher, the
  per-protocol listing functions, the per-format row parsers) enter as
  parameters: a compiled regular expression is the function `matchAt`
  telling whether the pattern matches starting at a given index, a protocol
  listing is the list of objects it yields, a parser is the rows it yields
  plus a flag for a trailing `InvalidFormatError`.
-/

/-- A Python string, as the list of its character codes (ASCII fragment). -/
abbrev PyStr := List Nat

/-- Character codes of a Lean string literal, to write `PyStr` values. -/
def pyOfString (s : String) : PyStr :=
  s.data.map Char.toNat

/-- Python regex `\w` on ASCII: letters, digits and the underscore. -/
def isWordCode (c : Nat) : Bool :=
  decide (48 ≤ c ∧ c ≤ 57) || decide (65 ≤ c ∧ c ≤ 90) ||
    decide (97 ≤ c ∧ c ≤ 122) || decide (c = 95)

/-- Python regex `\s` on ASCII: space, tab, newline, vertical tab, form
feed, carriage return. -/
def isSpaceCode (c : Nat) : Bool :=
  decide (c = 32) || decide (9 ≤ c ∧ c ≤ 13)

/-- Python `str.lower` on one ASCII character code. -/
def asciiLower (c : Nat) : Nat :=
  if 65 ≤ c ∧ c ≤ 90 then c + 32 else c

/-- Python `str.lower` on an ASCII string. -/
def pyLower (s : PyStr) : PyStr :=
  s.map asciiLower

/-- An ASCII uppercase letter. -/
def isUpperCode (c : Nat) : Bool :=
  decide (65 ≤ c ∧ c ≤ 90)

/-- An ASCII lowercase letter. -/
def isLowerCode (c : Nat) : Bool :=
  decide (97 ≤ c ∧ c ≤ 122)

/-- A cased ASCII character (uppercase or lowercase letter). -/
def isCasedCode (c : Nat) : Bool :=
  isUpperCode c || isLowerCode c

/-- Python `str.isprintable` on one ASCII character code: every ASCII
character from space (32) up to tilde (126). -/
def pyIsPrintableCode (c : Nat) : Bool :=
  decide (32 ≤ c ∧ c ≤ 126)

/-- `re.sub(r"[^\w\s]", "", s)` of json_handler/jsonl_handler
`generator_wrapper`: drop every character that is neither a word character
nor whitespace. -/
def stripNonWordChars (s : PyStr) : PyStr :=
  s.filter (fun c => isWordCode c || isSpaceCode c)

/-- Helper for `collapseSpaces`; the flag records whether the previous
character was whitespace (so the run it opened already emitted its
underscore). -/
def collapseSpacesAux : Bool → PyStr → PyStr
  | _, [] => []
  | prevWS, c :: rest =>
    if isSpaceCode c then
      if prevWS then collapseSpacesAux true rest
      else 95 :: collapseSpacesAux true rest
    else c :: collapseSpacesAux false rest

/-- `re.sub(r"\s+", "_", s)` of json_handler/jsonl_handler
`generator_wrapper`: each maximal whitespace run becomes one underscore
(code 95). -/
def collapseSpaces (s : PyStr) : PyStr :=
  collapseSpacesAux false s

/-- Field-name normalization of json_handler.generator_wrapper: strip
non-word non-whitespace characters, replace whitespace runs with
underscores, then lowercase at insertion (`to_return[formatted_key.lower()]`). -/
def json_format_key (key : PyStr) : PyStr :=
  pyLower (collapseSpaces (stripNonWordChars key))

/-- Python `str.isupper` on ASCII: at least one cased character, and every
cased character is uppercase. -/
def pyIsUpper (s : PyStr) : Bool :=
  s.any isCasedCode && s.all (fun c => !isCasedCode c || isUpperCode c)

/-- Field-name normalization of jsonl_handler.generator_wrapper: same strip
and whitespace replacement, but the key is lowercased only when
`formatted_key.isupper()` holds ("preserve mixed casing"). -/
def jsonl_format_key (key : PyStr) : PyStr :=
  let f := collapseSpaces (stripNonWordChars key)
  if pyIsUpper f then pyLower f else f

theorem asciiLower_idem (c : Nat) : asciiLower (asciiLower c) = asciiLower c := by
  by_cases h : 65 ≤ c ∧ c ≤ 90
  · rw [show asciiLower c = c + 32 from if_pos h]
    exact if_neg (by omega)
  · rw [show asciiLower c = c from if_neg h]
    exact if_neg h

theorem isWordCode_asciiLower {c : Nat} (h : isWordCode c = true) :
    isWordCode (asciiLower c) = true := by
  simp only [isWordCode, Bool.or_eq_true, decide_eq_true_eq] at h ⊢
  simp only [asciiLower]
  split <;> omega

theorem word_not_space {c : Nat} (h : isWordCode c = true) : isSpaceCode c = false := by
  simp only [isWordCode, Bool.or_eq_true, decide_eq_true_eq] at h
  simp only [isSpaceCode, Bool.or_eq_false_iff, decide_eq_false_iff_not]
  omega

theorem mem_collapseSpacesAux {c : Nat} {s : PyStr} :
    ∀ {b : Bool}, c ∈ collapseSpacesAux b s → c = 95 ∨ (c ∈ s ∧ isSpaceCode c = false) := by
  induction s with
  | nil => intro b h; exact absurd h (List.not_mem_nil c)
  | cons d rest ih =>
    intro b h
    simp only [collapseSpacesAux] at h
    by_cases hd : isSpaceCode d = true
    · rw [if_pos hd] at h
      cases b with
      | true =>
        rcases ih h with h95 | ⟨hm, hs⟩
        · exact Or.inl h95
        · exact Or.inr ⟨List.mem_cons_of_mem d hm, hs⟩
      | false =>
        rcases List.mem_cons.mp h with h95 | h'
        · exact Or.inl h95
        · rcases ih h' with h95 | ⟨hm, hs⟩
          · exact Or.inl h95
          · exact Or.inr ⟨List.mem_cons_of_mem d hm, hs⟩
    · rw [if_neg hd] at h
      rcases List.mem_cons.mp h with hc | h'
      · exact Or.inr ⟨hc ▸ List.mem_cons_self d rest, hc ▸ Bool.eq_false_iff.mpr hd⟩
      · rcases ih h' with h95 | ⟨hm, hs⟩
        · exact Or.inl h95
        · exact Or.inr ⟨List.mem_cons_of_mem d hm, hs⟩

/-- Every character of a json-normalized key is a word character, is not
whitespace, and is already lowercase (fixed by `asciiLower`). -/
theorem json_format_key_chars {c : Nat} {s : PyStr} (h : c ∈ json_format_key s) :
    isWordCode c = true ∧ isSpaceCode c = false ∧ asciiLower c = c := by
  simp only [json_format_key, pyLower, List.mem_map] at h
  obtain ⟨d, hd, rfl⟩ := h
  rcases mem_collapseSpacesAux hd with h95 | ⟨hm, hs⟩
  · subst h95
    refine ⟨by decide, by decide, by decide⟩
  · simp only [stripNonWordChars, List.mem_filter, Bool.or_eq_true] at hm
    have hword : isWordCode d = true := by
      rcases hm.2 with hw | hsp
      · exact hw
      · exact absurd hsp (by rw [hs]; simp)
    have hw' : isWordCode (asciiLower d) = true := isWordCode_asciiLower hword
    exact ⟨hw', word_not_space hw', asciiLower_idem d⟩

theorem stripNonWordChars_id {s : PyStr} (h : ∀ c ∈ s, isWordCode c = true) :
    stripNonWordChars s = s := by
  unfold stripNonWordChars
  apply List.filter_eq_self.mpr
  intro a ha
  simp [h a ha]

theorem collapseSpacesAux_id {s : PyStr} (h : ∀ c ∈ s, isSpaceCode c = false) :
    ∀ b, collapseSpacesAux b s = s := by
  induction s with
  | nil => intro b; rfl
  | cons d rest ih =>
    intro b
    simp only [collapseSpacesAux]
    rw [if_neg (by rw [h d (List.mem_cons_self d rest)]; simp)]
    rw [ih (fun c hc => h c (List.mem_cons_of_mem d hc)) false]

theorem pyLower_id : ∀ {s : PyStr}, (∀ c ∈ s, asciiLower c = c) → pyLower s = s := by
  intro s
  induction s with
  | nil => intro _; rfl
  | cons d rest ih =>
    intro h
    show asciiLower d :: pyLower rest = d :: rest
    rw [h d (List.mem_cons_self d rest), ih (fun c hc => h c (List.mem_cons_of_mem d hc))]

/-- Claim C6: field-name normalization in the json row iterator (strip
non-word non-whitespace characters, replace whitespace runs with
underscores, lowercase) is idempotent, and the name "Order #" normalizes to
"order_" (the ASCII fragment of Python's Unicode-aware regex classes is
modelled). -/
theorem json_format_key_idempotent :
    (∀ s : PyStr, json_format_key (json_format_key s) = json_format_key s) ∧
    json_format_key (pyOfString "Order #") = pyOfString "order_" := by
  constructor
  · intro s
    have h1 : stripNonWordChars (json_format_key s) = json_format_key s :=
      stripNonWordChars_id (fun c hc => (json_format_key_chars hc).1)
    have h2 : collapseSpaces (json_format_key s) = json_format_key s :=
      collapseSpacesAux_id (fun c hc => (json_format_key_chars hc).2.1) false
    have h3 : pyLower (json_format_key s) = json_format_key s :=
      pyLower_id (fun c hc => (json_format_key_chars hc).2.2)
    show pyLower (collapseSpaces (stripNonWordChars (json_format_key s))) = json_format_key s
    rw [h1]
    show pyLower (collapseSpacesAux false (json_format_key s)) = json_format_key s
    rw [show collapseSpacesAux false (json_format_key s) = json_format_key s from h2, h3]
  · decide

theorem not_cased_or_upper (c : Nat) : (!isCasedCode c || isUpperCode c) = !isLowerCode c := by
  simp only [isCasedCode, isUpperCode, isLowerCode]
  by_cases h1 : 65 ≤ c ∧ c ≤ 90
  · by_cases h2 : 97 ≤ c ∧ c ≤ 122
    · omega
    · simp [h1, h2]
  · by_cases h2 : 97 ≤ c ∧ c ≤ 122
    · simp [h1, h2]
    · simp [h1, h2]

/-- Python `str.isupper` semantics, spelled out: at least one cased
character, and no lowercase character. -/
theorem pyIsUpper_iff (s : PyStr) :
    pyIsUpper s = true ↔ (∃ c ∈ s, isCasedCode c = true) ∧ ∀ c ∈ s, isLowerCode c = false := by
  unfold pyIsUpper
  rw [Bool.and_eq_true, List.any_eq_true, List.all_eq_true]
  constructor
  · rintro ⟨⟨c, hc, hcased⟩, hall⟩
    refine ⟨⟨c, hc, hcased⟩, fun d hd => ?_⟩
    have hx := hall d hd
    rw [not_cased_or_upper] at hx
    simpa using hx
  · rintro ⟨⟨c, hc, hcased⟩, hall⟩
    refine ⟨⟨c, hc, hcased⟩, fun d hd => ?_⟩
    rw [not_cased_or_upper, hall d hd]
    rfl

/-- Claim C9, counterexample: the key "A B" normalizes to "A_B" before the
case decision; "A_B" does not consist entirely of uppercase characters (the
underscore is not an uppercase character), yet the jsonl handler lowercases
it to "a_b" (Python's `str.isupper` ignores uncased characters), refuting
the stated "if and only if it consists entirely of uppercase characters". -/
theorem jsonl_case_counterexample :
    jsonl_format_key (pyOfString "A B") = pyOfString "a_b" ∧
    (pyOfString "A_B").all isUpperCode = false ∧
    pyOfString "a_b" ≠ pyOfString "A_B" := by decide

/-- Claim C9, amended: the jsonl row iterator lowercases a normalized field
name exactly when the name has at least one cased character and no
lowercase character (Python `str.isupper` semantics: uncased characters
such as digits and underscores are ignored); otherwise the name is
preserved as-is. The json path, in contrast, always lowercases every
normalized name. -/
theorem jsonl_case_behavior :
    ∀ key : PyStr,
      ((∃ c ∈ collapseSpaces (stripNonWordChars key), isCasedCode c = true) ∧
          (∀ c ∈ collapseSpaces (stripNonWordChars key), isLowerCode c = false) →
        jsonl_format_key key = pyLower (collapseSpaces (stripNonWordChars key))) ∧
      ((∀ c ∈ collapseSpaces (stripNonWordChars key), isCasedCode c = false) ∨
          (∃ c ∈ collapseSpaces (stripNonWordChars key), isLowerCode c = true) →
        jsonl_format_key key = collapseSpaces (stripNonWordChars key)) ∧
      json_format_key key = pyLower (collapseSpaces (stripNonWordChars key)) := by
  intro key
  refine ⟨?_, ?_, rfl⟩
  · intro h
    have hup : pyIsUpper (collapseSpaces (stripNonWordChars key)) = true :=
      (pyIsUpper_iff _).mpr h
    simp only [jsonl_format_key, hup, if_true]
  · intro h
    have hup : pyIsUpper (collapseSpaces (stripNonWordChars key)) = false := by
      rw [Bool.eq_false_iff]
      intro hcontra
      obtain ⟨⟨c, hc, hcased⟩, hall⟩ := (pyIsUpper_iff _).mp hcontra
      rcases h with hnone | ⟨d, hd, hlow⟩
      · rw [hnone c hc] at hcased
        exact Bool.false_ne_true hcased
      · rw [hall d hd] at hlow
        exact Bool.false_ne_true hlow
    simp only [jsonl_format_key, hup, if_false]
    rfl

/-- Witness for `jsonl_case_behavior` at concrete keys: "AB 1" (no
lowercase character, cased characters present) is lowercased to "ab_1";
"Ab" (contains a lowercase character) is preserved. -/
theorem jsonl_case_behavior_witness :
    jsonl_format_key (pyOfString "AB 1") =
        pyLower (collapseSpaces (stripNonWordChars (pyOfString "AB 1"))) ∧
    jsonl_format_key (pyOfString "Ab") =
        collapseSpaces (stripNonWordChars (pyOfString "Ab")) :=
  ⟨(jsonl_case_behavior (pyOfString "AB 1")).1 (by decide),
   (jsonl_case_behavior (pyOfString "Ab")).2.1 (Or.inr (by decide))⟩

/-! ## File discovery (file_utils.get_matching_objects) -/

/-- An entry a protocol listing yields (the `{'Key': ..., 'LastModified': ...}`
dicts built by the `list_files_in_*` functions). -/
structure TargetObject where
  Key : PyStr
  LastModified : Nat
deriving DecidableEq

/-- An entry `get_matching_objects` returns
(`{'key': key, 'last_modified': last_modified}`). -/
structure MatchedObject where
  key : PyStr
  last_modified : Nat
deriving DecidableEq

/-- `matcher.search(key)`: the compiled pattern is the external `re`
collaborator, given as the function `matchAt key i` telling whether the
pattern matches in `key` starting at index `i`; `search` tries every start
position (substring semantics, no anchoring). -/
def pySearch (matchAt : PyStr → Nat → Bool) (key : PyStr) : Bool :=
  (List.range (key.length + 1)).any (fun i => matchAt key i)

/-- The filter of file_utils.get_matching_objects lines 184-194:
`matcher.search(key) and (modified_since is None or modified_since < last_modified)`. -/
def matchesCriteria (matchAt : PyStr → Nat → Bool) (modified_since : Option Nat)
    (obj : TargetObject) : Bool :=
  pySearch matchAt obj.Key &&
    (match modified_since with
     | none => true
     | some w => decide (w < obj.LastModified))

/-- The sort key of line 198: ascending `last_modified`. -/
def lastModifiedLE (a b : MatchedObject) : Prop :=
  a.last_modified ≤ b.last_modified

instance : DecidableRel lastModifiedLE :=
  fun a b => Nat.decLe a.last_modified b.last_modified

instance : IsTotal MatchedObject lastModifiedLE :=
  ⟨fun a b => Nat.le_total a.last_modified b.last_modified⟩

instance : IsTrans MatchedObject lastModifiedLE :=
  ⟨fun _ _ _ => Nat.le_trans⟩

/-- file_utils.get_matching_objects lines 176-198, after the per-protocol
listing (an external collaborator; its result is the parameter
`target_objects`): keep the objects matching the pattern and newer than the
watermark, rebuild them as `{'key', 'last_modified'}` entries, and return
them sorted ascending by `last_modified` (Python's `sorted` is a stable
sort, as is `List.insertionSort`). -/
def get_matching_objects (matchAt : PyStr → Nat → Bool) (modified_since : Option Nat)
    (target_objects : List TargetObject) : List MatchedObject :=
  List.insertionSort lastModifiedLE
    ((target_objects.filter (matchesCriteria matchAt modified_since)).map
      (fun obj => { key := obj.Key, last_modified := obj.LastModified }))

/-- Claim C1: for every table spec (its compiled pattern), every optional
watermark, and every set of listed objects, the list `get_matching_objects`
returns is sorted non-decreasing by `last_modified`; an empty result (here,
from an empty listing) is an ordinary value, not an error. -/
theorem get_matching_objects_sorted :
    ∀ (matchAt : PyStr → Nat → Bool) (modified_since : Option Nat)
      (target_objects : List TargetObject),
      List.Sorted lastModifiedLE (get_matching_objects matchAt modified_since target_objects) ∧
      get_matching_objects matchAt modified_since [] = [] :=
  fun matchAt modified_since target_objects =>
    ⟨List.sorted_insertionSort lastModifiedLE _, rfl⟩

/-- Claim C2: an entry is returned by `get_matching_objects` exactly when it
comes from a listed object whose key the pattern matches at some start
position (regex `search` semantics: a match anywhere in the key, no
anchoring at either end) and whose `last_modified` is strictly greater than
the watermark when one is given; a `none` watermark imposes no time
condition. The permutation conjunct states the multiset equality with the
filtered listing. -/
theorem get_matching_objects_membership :
    ∀ (matchAt : PyStr → Nat → Bool) (modified_since : Option Nat)
      (target_objects : List TargetObject) (e : MatchedObject),
      (e ∈ get_matching_objects matchAt modified_since target_objects ↔
        ∃ obj, obj ∈ target_objects ∧
          e = { key := obj.Key, last_modified := obj.LastModified } ∧
          (∃ i, i ≤ obj.Key.length ∧ matchAt obj.Key i = true) ∧
          (∀ w, modified_since = some w → w < obj.LastModified)) ∧
      List.Perm (get_matching_objects matchAt modified_since target_objects)
        ((target_objects.filter (matchesCriteria matchAt modified_since)).map
          (fun obj => { key := obj.Key, last_modified := obj.LastModified })) := by
  intro matchAt modified_since target_objects e
  have hperm :
      List.Perm (get_matching_objects matchAt modified_since target_objects)
        ((target_objects.filter (matchesCriteria matchAt modified_since)).map
          (fun obj => { key := obj.Key, last_modified := obj.LastModified })) :=
    List.perm_insertionSort lastModifiedLE _
  refine ⟨?_, hperm⟩
  rw [hperm.mem_iff, List.mem_map]
  constructor
  · rintro ⟨obj, hobj, rfl⟩
    rw [List.mem_filter] at hobj
    obtain ⟨hmem, hcrit⟩ := hobj
    rw [matchesCriteria.eq_def, Bool.and_eq_true] at hcrit
    obtain ⟨hsearch, htime⟩ := hcrit
    rw [pySearch, List.any_eq_true] at hsearch
    obtain ⟨i, hi, hm⟩ := hsearch
    rw [List.mem_range] at hi
    refine ⟨obj, hmem, rfl, ⟨i, Nat.lt_succ_iff.mp hi, hm⟩, ?_⟩
    intro w hw
    rw [hw] at htime
    exact of_decide_eq_true htime
  · rintro ⟨obj, hmem, rfl, ⟨i, hi, hm⟩, htime⟩
    refine ⟨obj, ?_, rfl⟩
    rw [List.mem_filter]
    refine ⟨hmem, ?_⟩
    rw [matchesCriteria.eq_def, Bool.and_eq_true]
    constructor
    · rw [pySearch, List.any_eq_true]
      exact ⟨i, List.mem_range.mpr (Nat.lt_succ_iff.mpr hi), hm⟩
    · cases modified_since with
      | none => rfl
      | some w => exact decide_eq_true (htime w rfl)

/-! ## Format dispatch: the skip_initial stage (format_handler.get_row_iterator) -/

/-- The four parser kinds the dispatcher branches over. -/
inductive FileFormat
  | csv
  | excel
  | json
  | jsonl
deriving DecidableEq

/-- The dispatcher's skip loop (format_handler.py lines 281-284):
`for _ in range(skip_initial): next(iterator)`. `none` is the
`StopIteration` that escapes `get_row_iterator` when `next` is called on an
already exhausted iterator. -/
def skipRows {α : Type} : Nat → List α → Option (List α)
  | 0, rows => some rows
  | _ + 1, [] => none
  | k + 1, _ :: rest => skipRows k rest

/-- The skip stage of format_handler.get_row_iterator applied to the rows
the chosen format collaborator yields: the loop runs for every format
except excel (`if format != 'excel':`). -/
def get_row_iterator_rows {α : Type} (format : FileFormat) (skip_initial : Nat)
    (rows : List α) : Option (List α) :=
  if format ≠ FileFormat.excel then skipRows skip_initial rows else some rows

theorem skipRows_of_le {α : Type} :
    ∀ (rows : List α) (k : Nat), k ≤ rows.length → skipRows k rows = some (rows.drop k) := by
  intro rows
  induction rows with
  | nil =>
    intro k hk
    rw [Nat.le_zero.mp hk]
    rfl
  | cons r rest ih =>
    intro k hk
    cases k with
    | zero => rfl
    | succ k' => exact ih k' (Nat.le_of_succ_le_succ hk)

theorem skipRows_of_gt {α : Type} :
    ∀ (rows : List α) (k : Nat), rows.length < k → skipRows k rows = none := by
  intro rows
  induction rows with
  | nil =>
    intro k hk
    cases k with
    | zero => exact absurd hk (Nat.lt_irrefl 0)
    | succ k' => rfl
  | cons r rest ih =>
    intro k hk
    cases k with
    | zero => exact absurd hk (Nat.not_lt_zero _)
    | succ k' => exact ih k' (Nat.lt_of_succ_lt_succ hk)

/-- Claim C3, counterexample: on an already empty row stream (n = 0) with
`skip_initial = 1 > n`, the claim demands max(0, n-k) = 0 rows; the
dispatcher instead fails — the skip loop's `next(iterator)` raises
`StopIteration` (modelled as `none`), which escapes `get_row_iterator`. -/
theorem skip_initial_counterexample :
    get_row_iterator_rows FileFormat.csv 1 ([] : List Nat) = none ∧
    (none : Option (List Nat)) ≠ some [] := by decide

/-- Claim C3, amended: for every non-excel format, `skip_initial = k` on a
stream of n rows yields exactly n - k rows (the order-preserving suffix)
when k ≤ n; when k > n the dispatcher does not yield zero rows but fails
(`StopIteration` escapes the skip loop, `none` here). For excel the skip is
not applied by the dispatcher. -/
theorem skip_initial_behavior :
    ∀ (α : Type) (format : FileFormat) (k : Nat) (rows : List α),
      (format ≠ FileFormat.excel → k ≤ rows.length →
        get_row_iterator_rows format k rows = some (rows.drop k) ∧
          (rows.drop k).length = rows.length - k) ∧
      (format ≠ FileFormat.excel → rows.length < k →
        get_row_iterator_rows format k rows = none) ∧
      (format = FileFormat.excel → get_row_iterator_rows format k rows = some rows) := by
  intro α format k rows
  refine ⟨?_, ?_, ?_⟩
  · intro hfmt hk
    rw [get_row_iterator_rows, if_pos hfmt, skipRows_of_le rows k hk]
    exact ⟨rfl, List.length_drop k rows⟩
  · intro hfmt hk
    rw [get_row_iterator_rows, if_pos hfmt, skipRows_of_gt rows k hk]
  · intro hfmt
    rw [get_row_iterator_rows, hfmt, if_neg (by simp)]

/-- Witness for `skip_initial_behavior`: skipping 1 of 2 rows keeps the
second row only; skipping 3 of 2 fails; excel streams are untouched. -/
theorem skip_initial_behavior_witness :
    get_row_iterator_rows FileFormat.csv 1 [5, 6] = some [6] ∧
    get_row_iterator_rows FileFormat.csv 3 [5, 6] = none ∧
    get_row_iterator_rows FileFormat.excel 1 [5, 6] = some [5, 6] :=
  ⟨((skip_initial_behavior Nat FileFormat.csv 1 [5, 6]).1 (by decide) (by decide)).1,
   (skip_initial_behavior Nat FileFormat.csv 3 [5, 6]).2.1 (by decide) (by decide),
   (skip_initial_behavior Nat FileFormat.excel 1 [5, 6]).2.2 rfl⟩

/-! ## Syncing and sampling (file_utils.write_file / sample_file) -/

/-- A parsed row: the dict a format collaborator yields, as an ordered
association list from normalized field name to value (`none` is Python's
`None`). -/
abbrev Row := List (PyStr × Option Nat)

/-- What a row iterator produces over its lifetime: the rows it yields, and
whether it ends by raising `InvalidFormatError` (a raise at acquisition is
`rows = []`, `fails = true`). -/
structure RowStream where
  rows : List Row
  fails : Bool

/-- `table_spec.get('invalid_format_action','fail').lower() == "ignore"` of
file_utils.py lines 85 and 114. -/
def ignoresInvalid (invalid_format_action : Option PyStr) : Bool :=
  decide (pyLower (invalid_format_action.getD (pyOfString "fail")) = pyOfString "ignore")

/-- The record loop of file_utils.write_file lines 63-82: each yielded row
is converted and emitted, `records_synced` is incremented, and the loop
breaks when `0 < max_records <= records_synced`. Returns the final
`records_synced` and whether the loop consumed the whole iterator (`true`),
so that a pending iterator error would be raised, or broke early (`false`). -/
def writeRecords (max_records : Int) : Nat → List Row → Nat × Bool
  | records_synced, [] => (records_synced, true)
  | records_synced, _ :: rest =>
    let s := records_synced + 1
    if 0 < max_records ∧ max_records ≤ (s : Int) then (s, false)
    else writeRecords max_records s rest

/-- file_utils.write_file lines 57-90: run the record loop; when the
iterator raised `InvalidFormatError` (and the loop actually reached it),
swallow it if `invalid_format_action` lowercases to "ignore", else
re-raise; return `records_synced`. -/
def write_file (invalid_format_action : Option PyStr) (max_records : Int)
    (stream : RowStream) : Except Unit Nat :=
  let r := writeRecords max_records 0 stream.rows
  if stream.fails && r.2 then
    if ignoresInvalid invalid_format_action then Except.ok r.1 else Except.error ()
  else Except.ok r.1

theorem writeRecords_break (max_records : Int) :
    ∀ (rows : List Row) (synced : Nat), 0 < max_records → (synced : Int) < max_records →
      max_records ≤ (synced : Int) + rows.length →
      writeRecords max_records synced rows = (max_records.toNat, false) := by
  intro rows
  induction rows with
  | nil =>
    intro synced hpos hlt hle
    simp only [List.length_nil] at hle
    omega
  | cons r rest ih =>
    intro synced hpos hlt hle
    rw [writeRecords]
    by_cases hbreak : max_records ≤ ((synced + 1 : Nat) : Int)
    · rw [if_pos ⟨hpos, by exact_mod_cast hbreak⟩]
      have : max_records = ((synced + 1 : Nat) : Int) := by
        push_cast at hbreak hlt ⊢
        omega
      rw [this]
      simp
    · rw [if_neg (fun hc => hbreak hc.2)]
      apply ih
      · exact hpos
      · push_cast at hbreak ⊢
        omega
      · simp only [List.length_cons] at hle
        push_cast at hle ⊢
        omega

theorem writeRecords_unlimited (max_records : Int) (hm : max_records ≤ 0) :
    ∀ (rows : List Row) (synced : Nat),
      writeRecords max_records synced rows = (synced + rows.length, true) := by
  intro rows
  induction rows with
  | nil => intro synced; simp [writeRecords]
  | cons r rest ih =>
    intro synced
    rw [writeRecords, if_neg (by omega)]
    rw [ih (synced + 1)]
    simp only [List.length_cons]
    rw [Prod.mk.injEq]
    exact ⟨by omega, rfl⟩

/-- Claim C4: on a stream of n rows with a positive cap m < n, `write_file`
emits exactly m records and the loop breaks before exhausting the iterator
(the `false` flag: it stops reading further input) — truncation, not an
error; a non-positive cap means unlimited (all n rows are emitted). -/
theorem write_file_max_records :
    ∀ (invalid_format_action : Option PyStr) (rows : List Row) (m : Int),
      (0 < m → m < (rows.length : Int) →
        writeRecords m 0 rows = (m.toNat, false) ∧
        write_file invalid_format_action m ⟨rows, false⟩ = Except.ok m.toNat ∧
        m.toNat < rows.length) ∧
      (m ≤ 0 →
        writeRecords m 0 rows = (rows.length, true) ∧
        write_file invalid_format_action m ⟨rows, false⟩ = Except.ok rows.length) := by
  intro invalid_format_action rows m
  constructor
  · intro hpos hlt
    have hw : writeRecords m 0 rows = (m.toNat, false) :=
      writeRecords_break m rows 0 hpos (by exact_mod_cast hpos) (by push_cast; omega)
    refine ⟨hw, ?_, by omega⟩
    rw [write_file]
    simp only [hw, Bool.false_and]
    rfl
  · intro hnonpos
    have hw : writeRecords m 0 rows = (rows.length, true) := by
      rw [writeRecords_unlimited m hnonpos rows 0]
      simp
    refine ⟨hw, ?_⟩
    rw [write_file]
    simp only [hw, Bool.false_and]
    rfl

/-- Witness for `write_file_max_records`: a cap of 2 on 3 rows emits 2
records and stops early; a cap of -1 (the default) emits all 3. -/
theorem write_file_max_records_witness :
    writeRecords 2 0 [[], [], []] = (2, false) ∧
    write_file none (-1) ⟨[[], [], []], false⟩ = Except.ok 3 :=
  ⟨((write_file_max_records none [[], [], []] 2).1 (by decide) (by decide)).1,
   ((write_file_max_records none [[], [], []] (-1)).2 (by decide)).2⟩

/-- `all(value == None for value in row.values())` of file_utils.py
line 105. -/
def allNullRow (row : Row) : Bool :=
  row.all (fun kv => kv.2.isNone)

/-- The sampling loop of file_utils.sample_file lines 99-112, carrying the
accumulated `samples` and `current_row`. At a sampling position
(`current_row % sample_rate == 0`) an all-null row under `skip_empty_rows`
hits `continue`, which skips both `current_row += 1` and the break check;
otherwise the row is appended when at a sampling position, the counter
advances, and the loop breaks once `len(samples) >= max_records`. Returns
the samples and whether the iterator was fully consumed. -/
def sampleRows (skip_empty : Bool) (sample_rate max_records : Nat) :
    List Row → Nat → List Row → List Row × Bool
  | samples, _, [] => (samples, true)
  | samples, current_row, row :: rest =>
    if current_row % sample_rate = 0 ∧ skip_empty = true ∧ allNullRow row = true then
      sampleRows skip_empty sample_rate max_records samples current_row rest
    else
      let samples' := if current_row % sample_rate = 0 then samples ++ [row] else samples
      if max_records ≤ samples'.length then (samples', false)
      else sampleRows skip_empty sample_rate max_records samples' (current_row + 1) rest

/-- file_utils.sample_file lines 93-124: run the sampling loop; when the
iterator raised `InvalidFormatError` and the loop reached it, re-raise
unless `invalid_format_action` lowercases to "ignore"; finally, when
`ignore_undefined_field_names` is set, pop the empty-string key from every
sampled row. -/
def sample_file (invalid_format_action : Option PyStr)
    (skip_empty ignore_undefined_field_names : Bool) (sample_rate max_records : Nat)
    (stream : RowStream) : Except Unit (List Row) :=
  let r := sampleRows skip_empty sample_rate max_records [] 0 stream.rows
  if stream.fails && r.2 && !ignoresInvalid invalid_format_action then Except.error ()
  else
    Except.ok
      (if ignore_undefined_field_names then
        r.1.map (fun row => row.filter (fun kv => decide (kv.1 ≠ [])))
      else r.1)

theorem sampleRows_length_le (skip_empty : Bool) (sample_rate max_records : Nat) :
    ∀ (rows samples : List Row) (current_row : Nat), samples.length < max_records →
      (sampleRows skip_empty sample_rate max_records samples current_row rows).1.length ≤
        max_records := by
  intro rows
  induction rows with
  | nil => intro samples current_row hlt; exact Nat.le_of_lt hlt
  | cons row rest ih =>
    intro samples current_row hlt
    rw [sampleRows]
    by_cases hskip : current_row % sample_rate = 0 ∧ skip_empty = true ∧ allNullRow row = true
    · rw [if_pos hskip]
      exact ih samples current_row hlt
    · rw [if_neg hskip]
      by_cases hpos : current_row % sample_rate = 0
      · simp only [hpos, if_true]
        by_cases hbreak : max_records ≤ (samples ++ [row]).length
        · rw [if_pos hbreak]
          simp only [List.length_append, List.length_cons, List.length_nil] at hbreak ⊢
          omega
        · rw [if_neg hbreak]
          exact ih (samples ++ [row]) (current_row + 1) (Nat.lt_of_not_le hbreak)
      · simp only [hpos, if_false]
        by_cases hbreak : max_records ≤ samples.length
        · exact absurd hbreak (Nat.not_le_of_lt hlt)
        · rw [if_neg hbreak]
          exact ih samples (current_row + 1) hlt

/-- A concrete all-null row for witnesses. -/
def nullValuedRow : Row := [(pyOfString "a", none)]

/-- A concrete non-null row for witnesses. -/
def rowOne : Row := [(pyOfString "a", some 1)]

/-- A second concrete non-null row for witnesses. -/
def rowTwo : Row := [(pyOfString "a", some 2)]

/-- Claim C10: in `sample_file` with `skip_empty_rows` set, an all-null row
met at a sampling position is dropped by `continue` without advancing
`current_row`, so the immediately following row is evaluated at the
sampling position (third conjunct: with `sample_rate = 10` the row after a
dropped null row is sampled although its read-index is 1); and the
retained-sample count, not the rows-read count, is what `max_records`
bounds (second conjunct bounds the samples; the fourth reads five rows
while retaining exactly `max_records = 2`). -/
theorem sample_file_skip_empty_rows :
    (∀ (sample_rate max_records current_row : Nat) (samples rest : List Row) (row : Row),
      current_row % sample_rate = 0 → allNullRow row = true →
      sampleRows true sample_rate max_records samples current_row (row :: rest) =
        sampleRows true sample_rate max_records samples current_row rest) ∧
    (∀ (skip_empty : Bool) (sample_rate max_records : Nat) (rows : List Row),
      1 ≤ max_records →
      (sampleRows skip_empty sample_rate max_records [] 0 rows).1.length ≤ max_records) ∧
    sampleRows true 10 100 [] 0 [nullValuedRow, rowOne] = ([rowOne], true) ∧
    sampleRows true 1 2 [] 0 [nullValuedRow, nullValuedRow, nullValuedRow, rowOne, rowTwo] =
      ([rowOne, rowTwo], false) := by
  refine ⟨?_, ?_, by decide, by decide⟩
  · intro sample_rate max_records current_row samples rest row hpos hnull
    rw [sampleRows, if_pos ⟨hpos, rfl, hnull⟩]
  · intro skip_empty sample_rate max_records rows hmax
    exact sampleRows_length_le skip_empty sample_rate max_records rows [] 0 hmax

/-- Claim C5, counterexample: the configured value "IGNORE" is a value
other than 'ignore', so per the claim the InvalidFormatError should
propagate; the code lowercases the configured value before comparing
(file_utils.py line 85), so the failing file is skipped and `write_file`
returns 0 records without raising. -/
theorem invalid_format_action_counterexample :
    write_file (some (pyOfString "IGNORE")) (-1) ⟨[], true⟩ = Except.ok 0 ∧
    pyOfString "IGNORE" ≠ pyOfString "ignore" := by
  constructor
  · rfl
  · decide

/-- Claim C5, amended: when the row iterator raises `InvalidFormatError`
in `write_file` or `sample_file`, the file is skipped — yielding only the
records synced before the error, without raising — exactly when the table
spec's `invalid_format_action` equals "ignore" case-insensitively (the
value is lowercased before the comparison); any value whose lowercasing is
not "ignore", including the default "fail" used when the field is absent,
propagates the error to the caller. -/
theorem invalid_format_action_behavior :
    ∀ (invalid_format_action : Option PyStr) (max_records : Int) (stream : RowStream),
      (ignoresInvalid invalid_format_action = true →
        write_file invalid_format_action max_records stream =
          Except.ok (writeRecords max_records 0 stream.rows).1 ∧
        ∃ samples,
          sample_file invalid_format_action false false 10 1000 stream = Except.ok samples) ∧
      (ignoresInvalid invalid_format_action = false → stream.fails = true →
        write_file invalid_format_action (-1) stream = Except.error () ∧
        ((sampleRows false 10 1000 [] 0 stream.rows).2 = true →
          sample_file invalid_format_action false false 10 1000 stream = Except.error ())) ∧
      ignoresInvalid none = false ∧
      ignoresInvalid (some (pyOfString "fail")) = false := by
  intro invalid_format_action max_records stream
  refine ⟨?_, ?_, by decide, by decide⟩
  · intro hig
    constructor
    · simp [write_file, hig]
    · refine ⟨(sampleRows false 10 1000 [] 0 stream.rows).1, ?_⟩
      simp [sample_file, hig]
  · intro hig hfail
    constructor
    · have hr : writeRecords (-1) 0 stream.rows = (stream.rows.length, true) := by
        rw [writeRecords_unlimited (-1) (by omega) stream.rows 0]
        simp
      simp [write_file, hr, hfail, hig]
    · intro hex
      simp [sample_file, hfail, hig, hex]

/-- Witness for `invalid_format_action_behavior`: a failing stream with the
field absent propagates the error; with the mixed-case value "iGnOrE" it is
swallowed and 0 records come back. -/
theorem invalid_format_action_behavior_witness :
    write_file none (-1) ⟨[], true⟩ = Except.error () ∧
    write_file (some (pyOfString "iGnOrE")) (-1) ⟨[], true⟩ = Except.ok 0 := by
  constructor
  · exact ((invalid_format_action_behavior none (-1) ⟨[], true⟩).2.1 (by decide) rfl).1
  · rw [((invalid_format_action_behavior (some (pyOfString "iGnOrE")) (-1)
      ⟨[], true⟩).1 (by decide)).1]
    rfl


/-! ## Format detection (format_handler.get_row_iterator lines 227-258) -/

/-- The detection failures raised in format_handler.get_row_iterator:
`ValueError("Unable to detect the format...")`,
`ValueError("Unable to read ... for type detection")`, and a declared
format string outside csv/excel/json/jsonl (no dispatch branch applies). -/
inductive DetectError
  | detectionFailed
  | emptyRead
  | unknownDeclared
deriving DecidableEq

/-- `reader.read(n)` on a text stream over `content` at position `pos`:
the next `n` characters and the new position. -/
def streamRead (content : PyStr) (pos n : Nat) : PyStr × Nat :=
  ((content.drop pos).take n, min (pos + n) content.length)

/-- `buf[0].lstrip()`: stripping a one-character Python string yields the
empty string when the character is whitespace, else the character itself. -/
def lstripSingle (c : Nat) : PyStr :=
  if isSpaceCode c = true then [] else [c]

/-- `lowered_uri.endswith(ext)`. -/
def endsWithPy (s ext : PyStr) : Bool :=
  ext.isSuffixOf s

/-- An explicitly declared format string, as the dispatch branches of
format_handler.get_row_iterator lines 261-277 read it. -/
def parseFormatName (s : PyStr) : Option FileFormat :=
  if s = pyOfString "csv" then some FileFormat.csv
  else if s = pyOfString "excel" then some FileFormat.excel
  else if s = pyOfString "json" then some FileFormat.json
  else if s = pyOfString "jsonl" then some FileFormat.jsonl
  else none

/-- The extension chain of format_handler.get_row_iterator lines 234-241
over the lowercased uri: .xlsx/.xls excel, .json/.js json, .jsonl jsonl,
.csv csv, in that order; `none` sends detection to the probe branch. -/
def detect_by_extension (lowered_uri : PyStr) : Option FileFormat :=
  if endsWithPy lowered_uri (pyOfString ".xlsx") || endsWithPy lowered_uri (pyOfString ".xls") then
    some FileFormat.excel
  else if endsWithPy lowered_uri (pyOfString ".json") || endsWithPy lowered_uri (pyOfString ".js") then
    some FileFormat.json
  else if endsWithPy lowered_uri (pyOfString ".jsonl") then
    some FileFormat.jsonl
  else if endsWithPy lowered_uri (pyOfString ".csv") then
    some FileFormat.csv
  else
    none

/-- Format resolution of format_handler.get_row_iterator lines 232-258.
When `format` is absent or 'detect': extension rules on the lowercased uri
first; otherwise open the object, `read(10)`, `seek(0)`, and classify from
the probe buffer (`buf[0].lstrip() == "["`, then `buf[0].isprintable()`).
Returns the resolved format together with the probe stream's final
position when a probe was taken (`none` when no probing happened). -/
def detect_format (declared : Option PyStr) (uri content : PyStr) :
    Except DetectError (FileFormat × Option Nat) :=
  if declared = none ∨ declared = some (pyOfString "detect") then
    match detect_by_extension (pyLower uri) with
    | some format => Except.ok (format, none)
    | none =>
      let buf := (streamRead content 0 10).1
      let pos := 0
      if 0 < buf.length then
        if lstripSingle (buf.headD 0) = [91] then Except.ok (FileFormat.json, some pos)
        else if pyIsPrintableCode (buf.headD 0) = true then Except.ok (FileFormat.csv, some pos)
        else Except.error DetectError.detectionFailed
      else Except.error DetectError.emptyRead
  else
    match declared with
    | some f =>
      match parseFormatName f with
      | some format => Except.ok (format, none)
      | none => Except.error DetectError.unknownDeclared
    | none => Except.error DetectError.unknownDeclared

/-- The amended detection behaviour, written out from the corrected claim:
extension rules exactly as claimed; for an unrecognized extension the
classification looks at the FIRST character of the content (not the first
non-whitespace character): '[' (code 91) gives json, any other printable
character — the space included — gives csv, anything else fails; the probe
stream's position is 0 (reset) whenever a probe was taken. -/
def detect_format_amended (declared : Option PyStr) (uri content : PyStr) :
    Except DetectError (FileFormat × Option Nat) :=
  if declared = none ∨ declared = some (pyOfString "detect") then
    match detect_by_extension (pyLower uri) with
    | some format => Except.ok (format, none)
    | none =>
      match content with
      | [] => Except.error DetectError.emptyRead
      | c :: _ =>
        if c = 91 then Except.ok (FileFormat.json, some 0)
        else if pyIsPrintableCode c = true then Except.ok (FileFormat.csv, some 0)
        else Except.error DetectError.detectionFailed
  else
    match declared with
    | some f =>
      match parseFormatName f with
      | some format => Except.ok (format, none)
      | none => Except.error DetectError.unknownDeclared
    | none => Except.error DetectError.unknownDeclared

/-- Claim C8, counterexample: for an unrecognized extension and a file
whose content is " [1, 2]", the first non-whitespace character is '['
(code 91), so per the claim detection should yield json; the code instead
classifies by the raw first character — a space, whose single-character
`lstrip()` is empty and which `isprintable()` accepts — and yields csv. -/
theorem detect_format_counterexample :
    detect_format none (pyOfString "file://bucket/data.bin") (pyOfString " [1, 2]") =
      Except.ok (FileFormat.csv, some 0) ∧
    ((pyOfString " [1, 2]").dropWhile isSpaceCode).headD 0 = 91 := by
  constructor
  · rfl
  · decide

/-- Claim C8, amended: with the format absent or 'detect', the parser is
resolved by extension first (.xlsx/.xls excel, .json/.js json, .jsonl
jsonl, .csv csv, case-insensitively via the lowercased uri, without
probing); for an unrecognized extension a 10-character probe is read and
the stream is reset to position 0, and classification is by the FIRST
character of the probe: '[' yields json, any other printable character
(space included) yields csv, otherwise detection fails; an unreadable
(empty) probe also fails. -/
theorem detect_format_behavior :
    ∀ (declared : Option PyStr) (uri content : PyStr),
      detect_format declared uri content = detect_format_amended declared uri content := by
  intro declared uri content
  rw [detect_format.eq_def, detect_format_amended.eq_def]
  split
  · cases hext : detect_by_extension (pyLower uri) with
    | some format => rfl
    | none =>
      simp only []
      cases content with
      | nil => rfl
      | cons c rest =>
        simp only [streamRead, List.drop_zero, List.take, List.headD_cons, List.length_cons,
          Nat.zero_lt_succ, if_true]
        by_cases hsp : isSpaceCode c = true
        · have h1 : lstripSingle c = [] := if_pos hsp
          have hc91 : c ≠ 91 := by
            intro hc
            rw [hc] at hsp
            exact absurd hsp (by decide)
          rw [h1, if_neg (by simp), if_neg hc91]
        · have h1 : lstripSingle c = [c] := if_neg hsp
          rw [h1]
          by_cases hc : c = 91
          · rw [if_pos (by rw [hc]), if_pos hc]
          · rw [if_neg (by simpa using hc), if_neg hc]
  · rfl

/-- Witness for `detect_format_behavior` (with concrete values on both
sides): a ".CSV" extension resolves to csv without probing; an unknown
extension with tab-leading content fails detection even though a '['
follows the tab. -/
theorem detect_format_behavior_witness :
    detect_format none (pyOfString "s3://b/FILE.CSV") (pyOfString "") =
      detect_format_amended none (pyOfString "s3://b/FILE.CSV") (pyOfString "") ∧
    detect_format none (pyOfString "s3://b/FILE.CSV") (pyOfString "") =
      Except.ok (FileFormat.csv, none) ∧
    detect_format (some (pyOfString "detect")) (pyOfString "x.bin") (pyOfString "\t[1]") =
      detect_format_amended (some (pyOfString "detect")) (pyOfString "x.bin") (pyOfString "\t[1]") ∧
    detect_format (some (pyOfString "detect")) (pyOfString "x.bin") (pyOfString "\t[1]") =
      Except.error DetectError.detectionFailed :=
  ⟨detect_format_behavior none (pyOfString "s3://b/FILE.CSV") (pyOfString ""), by rfl,
   detect_format_behavior (some (pyOfString "detect")) (pyOfString "x.bin") (pyOfString "\t[1]"),
   by rfl⟩

/-! ## Crawl configuration (file_utils.config_by_crawl lines 378-445) -/

/-- A crawl source entry: its configured fields, plus the two external
collaborators its discovery uses — the compiled pattern (`matchAt`) and the
protocol listing it would receive (`objects`). -/
structure CrawlSource where
  path : PyStr
  start_date : Option Nat
  matchAt : PyStr → Nat → Bool
  objects : List TargetObject
  encoding : Option PyStr
  max_records_per_run : Option Int
  max_sampled_files : Option Nat
  max_sampling_read : Option Nat
  universal_newlines : Option Bool
  prefer_number_vs_integer : Option Bool
  prefer_schema_as_string : Option Bool

/-- A generated table entry (the dict literals at file_utils.py lines
401-418 and 423-440; `search_dir` is the source's search-prefix field). -/
structure CrawlEntry where
  path : PyStr
  name : PyStr
  search_dir : PyStr
  pattern : PyStr
  key_properties : List PyStr
  format : PyStr
  encoding : PyStr
  invalid_format_action : PyStr
  delimiter : PyStr
  max_records_per_run : Int
  max_sampled_files : Nat
  max_sampling_read : Nat
  universal_newlines : Bool
  prefer_number_vs_integer : Bool
  prefer_schema_as_string : Bool
  start_date : Nat
deriving DecidableEq

/-- Python `str.split(sep)` for a one-character separator: always returns
at least one (possibly empty) part and keeps empty parts. -/
def splitOnCode (sep : Nat) : PyStr → List PyStr
  | [] => [[]]
  | c :: rest =>
    match splitOnCode sep rest with
    | [] => [[c]]
    | h :: t => if c = sep then [] :: h :: t else (c :: h) :: t

/-- `re.sub(r'\W+', '', s)`: with an empty replacement this deletes every
non-word character. -/
def stripToWord (s : PyStr) : PyStr :=
  s.filter isWordCode

/-- The common fields of the two table-entry dict literals of
config_by_crawl (they differ only in the name and pattern passed in). -/
def mkCrawlEntry (source : CrawlSource) (table directory abs_pattern : PyStr)
    (modified_since : Nat) : CrawlEntry :=
  { path := source.path
    name := table
    search_dir := directory
    pattern := abs_pattern
    key_properties := []
    format := pyOfString "detect"
    encoding := source.encoding.getD (pyOfString "utf-8")
    invalid_format_action := pyOfString "ignore"
    delimiter := pyOfString "detect"
    max_records_per_run := source.max_records_per_run.getD (-1)
    max_sampled_files := source.max_sampled_files.getD 5
    max_sampling_read := source.max_sampling_read.getD 1000
    universal_newlines := source.universal_newlines.getD true
    prefer_number_vs_integer := source.prefer_number_vs_integer.getD false
    prefer_schema_as_string := source.prefer_schema_as_string.getD false
    start_date := modified_since }

/-- The body of the `for file in target_files` loop of config_by_crawl
lines 385-443, acting on the insertion-ordered `entries` dict (an
association list keyed by table name). Keys ending in '/' (code 47) are
folders and skipped; otherwise the key is split on '/' for the table name
(non-word characters stripped from the '_'-join of the directory parts, or
from the bare filename) and the directory, and on '.' (code 46) for the
extension, giving the pattern directory + '/' + '.*' + extension + '$';
a new table name is inserted, and a known table name with a different
pattern inserts a disambiguated name unless that name is also taken. -/
def crawlStep (source : CrawlSource) (modified_since : Nat)
    (entries : List (PyStr × CrawlEntry)) (file : MatchedObject) :
    List (PyStr × CrawlEntry) :=
  if file.key.getLast? = some 47 then entries
  else
    let dirs := splitOnCode 47 file.key
    let table :=
      if 1 < dirs.length then stripToWord (List.intercalate [95] dirs.dropLast)
      else stripToWord (dirs.headD [])
    let directory := List.intercalate [47] dirs.dropLast
    let parts := splitOnCode 46 file.key
    let rel_pattern :=
      if 1 < parts.length then [46, 42] ++ parts.getLastD []
      else parts.headD []
    let abs_pattern := directory ++ [47] ++ rel_pattern ++ [36]
    match entries.find? (fun e => e.1 = table) with
    | none => entries ++ [(table, mkCrawlEntry source table directory abs_pattern modified_since)]
    | some e =>
      if abs_pattern ≠ e.2.pattern then
        let table_with_pattern := stripToWord (table ++ [95] ++ rel_pattern)
        if (entries.find? (fun p => p.1 = table_with_pattern)).isNone then
          entries ++
            [(table_with_pattern,
              mkCrawlEntry source table_with_pattern directory abs_pattern modified_since)]
        else entries
      else entries

/-- file_utils.config_by_crawl: for the FIRST crawl source only — the
`return config` at line 445 sits inside the `for source in crawl_config`
loop, so the loop body runs once — parse its start date (epoch default),
discover matching objects, fold the crawl step over them, and return the
entries' values. An empty crawl list makes the function fall off the end
and return Python `None` (`Option.none` here). -/
def config_by_crawl (crawl_config : List CrawlSource) : Option (List CrawlEntry) :=
  match crawl_config with
  | [] => none
  | source :: _ =>
    let modified_since := source.start_date.getD 0
    let target_files := get_matching_objects source.matchAt (some modified_since) source.objects
    some ((target_files.foldl (crawlStep source modified_since) []).map Prod.snd)

/-- A concrete crawl source holding a/x.csv, a/y.csv and b/z.json — the
claim's scenario. -/
def crawlSourceA : CrawlSource :=
  { path := pyOfString "file://root"
    start_date := some 0
    matchAt := fun _ _ => true
    objects := [⟨pyOfString "a/x.csv", 5⟩, ⟨pyOfString "a/y.csv", 6⟩, ⟨pyOfString "b/z.json", 7⟩]
    encoding := none
    max_records_per_run := none
    max_sampled_files := none
    max_sampling_read := none
    universal_newlines := none
    prefer_number_vs_integer := none
    prefer_schema_as_string := none }

/-- A second concrete crawl source holding c/w.csv. -/
def crawlSourceB : CrawlSource :=
  { path := pyOfString "file://other"
    start_date := some 0
    matchAt := fun _ _ => true
    objects := [⟨pyOfString "c/w.csv", 8⟩]
    encoding := none
    max_records_per_run := none
    max_sampled_files := none
    max_sampling_read := none
    universal_newlines := none
    prefer_number_vs_integer := none
    prefer_schema_as_string := none }

/-- Claim C7 (code bug): on the claim's own single-source scenario the
grouping works as stated — files a/x.csv, a/y.csv, b/z.json produce
exactly the tables "a" (pattern "a/.*csv$") and "b" (pattern "b/.*json$")
— but for a two-source crawl the `return config` at file_utils.py line 445
sits inside the `for source in crawl_config` loop, so the tables of every
source after the first are silently dropped: crawling [A, B] returns
exactly A's two tables, though B alone would contribute its table "c". -/
theorem config_by_crawl_first_source_only :
    (config_by_crawl [crawlSourceA, crawlSourceB]).map (fun ts => ts.map CrawlEntry.name) =
      some [pyOfString "a", pyOfString "b"] ∧
    (config_by_crawl [crawlSourceA, crawlSourceB]).map (fun ts => ts.map CrawlEntry.pattern) =
      some [pyOfString "a/.*csv$", pyOfString "b/.*json$"] ∧
    (config_by_crawl [crawlSourceB]).map (fun ts => ts.map CrawlEntry.name) =
      some [pyOfString "c"] ∧
    config_by_crawl [] = none := by
  refine ⟨by rfl, by rfl, by rfl, rfl⟩
